import Mathlib

/-!
Verification of the advertisement-classification and payload-decoding core of the
Web-Beacon-Scanner repository (src/script.js, two script variants separated in that
file, and src/unnamed/part_000, a third variant).

Embedding conventions:
* A byte buffer (JavaScript DataView / Uint8Array over the payload) is a List Nat,
  each entry the byte value at that index.  The DataView handed to a decoder is
  assumed to cover exactly the payload bytes.
* DataView reads are modelled in the Except Unit monad: Except.error () is a thrown
  RangeError (an out-of-bounds access), Except.ok a successful read.  A decoder
  therefore has type List Nat -> Except Unit (Option BeaconData): Except.error means
  the JavaScript function throws, Except.ok none means it returns null ("no result").
* JavaScript number arithmetic on the decoded sensor fields is modelled exactly over
  the rationals; Number.prototype.toFixed is modelled by the ECMAScript algorithm
  (round to f fractional digits, ties towards the larger candidate after splitting
  off the sign) applied to the exact rational value.
* JavaScript strings are Lean Strings; String.fromCharCode is Char.ofNat.
-/

/-- dataView.getUint8(i): the byte at index i, or a RangeError past the end. -/
def dvGetUint8 (data : List Nat) (i : Nat) : Except Unit Nat :=
  if h : i < data.length then .ok (data.get ⟨i, h⟩) else .error ()

/-- dataView.getUint16(i, false): big-endian unsigned 16-bit read at offset i. -/
def dvGetUint16 (data : List Nat) (i : Nat) : Except Unit Nat := do
  let hi ← dvGetUint8 data i
  let lo ← dvGetUint8 data (i + 1)
  pure (hi * 256 + lo)

/-- dataView.getUint32(i, false): big-endian unsigned 32-bit read at offset i. -/
def dvGetUint32 (data : List Nat) (i : Nat) : Except Unit Nat := do
  let b0 ← dvGetUint8 data i
  let b1 ← dvGetUint8 data (i + 1)
  let b2 ← dvGetUint8 data (i + 2)
  let b3 ← dvGetUint8 data (i + 3)
  pure (((b0 * 256 + b1) * 256 + b2) * 256 + b3)

/-- dataView.getInt8(i): the byte at index i read as a signed (two's complement) value. -/
def dvGetInt8 (data : List Nat) (i : Nat) : Except Unit Int := do
  let b ← dvGetUint8 data i
  pure (if b < 128 then (b : Int) else (b : Int) - 256)

/-- dataView.getInt16(i, false): big-endian signed 16-bit read at offset i. -/
def dvGetInt16 (data : List Nat) (i : Nat) : Except Unit Int := do
  let v ← dvGetUint16 data i
  pure (if v < 32768 then (v : Int) else (v : Int) - 65536)

/-- new Uint8Array(buffer, byteOffset + off, len): a sub-view of len bytes starting at
off, or a RangeError when it would reach past the end of the buffer. -/
def dvSlice (data : List Nat) (off len : Nat) : Except Unit (List Nat) :=
  if off + len ≤ data.length then .ok ((data.drop off).take len) else .error ()

/-- JavaScript array.slice(a, b) (and string.slice via its character list). -/
def jsSlice {α : Type} (l : List α) (a b : Nat) : List α :=
  (l.drop a).take (b - a)

/-- str.padStart(2, Char.ofNat 48): pad on the left with zeros to length 2. -/
def padStart2 (l : List Char) : List Char :=
  List.replicate (2 - l.length) '0' ++ l

/-- byte.toString(16): lowercase hexadecimal digits of a number. -/
def jsHexString (b : Nat) : List Char :=
  Nat.toDigits 16 b

/-- bytesToUuid from src/script.js: hex-encode 16 bytes (two lowercase digits each,
joined), slice the 32-character string into 8-4-4-4-12 groups joined by hyphens, and
uppercase the result. -/
def bytesToUuid (bytes : List Nat) : String :=
  let hex := (bytes.map (fun b => padStart2 (jsHexString b))).flatten
  String.mk ((jsSlice hex 0 8 ++ '-' :: (jsSlice hex 8 12 ++ '-' ::
    (jsSlice hex 12 16 ++ '-' :: (jsSlice hex 16 20 ++ '-' ::
      jsSlice hex 20 32)))).map Char.toUpper)

/-- bytesToHex from src/script.js: hex-encode a byte sequence, two lowercase digits
per byte, joined and uppercased. -/
def bytesToHex (bytes : List Nat) : String :=
  String.mk (((bytes.map (fun b => padStart2 (jsHexString b))).flatten).map Char.toUpper)

/-- The tagged beacon record union produced by the decoders (the string-tagged
objects of the source, with the 'type' field become the constructor). -/
inductive BeaconData where
  | iBeacon (uuid : String) (major minor : Nat)
  | eddystoneUID (namespaceHex instanceHex : String)
  | eddystoneURL (url : String)
  | eddystoneTLM (battery : Nat) (temperature : String) (packets : Nat) (uptime : String)
  | ruuviTag (temperature humidity pressure : String) (battery : Nat)
  | gattService (name : String)
deriving DecidableEq

/-- The 'type' string tag each decoded object carries in the source. -/
def BeaconData.typeTag : BeaconData → String
  | .iBeacon .. => "iBeacon"
  | .eddystoneUID .. => "Eddystone-UID"
  | .eddystoneURL .. => "Eddystone-URL"
  | .eddystoneTLM .. => "Eddystone-TLM"
  | .ruuviTag .. => "RuuviTag Sensor"
  | .gattService _ => "GATT-Dienst"

/-- The ECMAScript toFixed digit string for a nonnegative scaled integer n:
integer part, a dot, then exactly f fractional digits. -/
def natDecimals (f n : Nat) : String :=
  toString (n / 10 ^ f) ++ "." ++
    String.mk (List.replicate (f - (Nat.toDigits 10 (n % 10 ^ f)).length) '0' ++
      Nat.toDigits 10 (n % 10 ^ f))

/-- Number.prototype.toFixed(f) on a nonnegative exact rational: the integer n
nearest to q * 10^f, ties to the larger n, rendered with f fractional digits. -/
def jsToFixedPos (f : Nat) (q : ℚ) : String :=
  natDecimals f (⌊q * (10 : ℚ) ^ f + 1 / 2⌋).toNat

/-- Number.prototype.toFixed(f): split off the sign, then round and render. -/
def jsToFixed (f : Nat) (q : ℚ) : String :=
  if q < 0 then "-" ++ jsToFixedPos f (-q) else jsToFixedPos f q

/-- Round a rational to the nearest integer, ties to the even integer (the IEEE-754
tie-breaking rule). -/
def roundHalfEven (x : ℚ) : ℤ :=
  if x - ⌊x⌋ < 1/2 then ⌊x⌋
  else if 1/2 < x - ⌊x⌋ then ⌊x⌋ + 1
  else if ⌊x⌋ % 2 = 0 then ⌊x⌋ else ⌊x⌋ + 1

/-- The IEEE-754 binary64 value nearest a positive rational: scale into the binade
so the significand lies in two to the 52 up to two to the 53, round to the nearest
53-bit significand with ties to even, and scale back.  Exact on the normal,
non-overflowing range, which covers every value the decoders compute. -/
def fl64Pos (q : ℚ) : ℚ :=
  (roundHalfEven (q * (2 : ℚ) ^ ((52 : ℤ) - Int.log 2 q)) : ℚ) *
    (2 : ℚ) ^ (Int.log 2 q - (52 : ℤ))

/-- The IEEE-754 binary64 value nearest a rational (binary64 rounding is symmetric
in the sign). -/
def fl64 (q : ℚ) : ℚ :=
  if q = 0 then 0 else if q < 0 then -fl64Pos (-q) else fl64Pos q

/-- The binary64 value denoted by the JavaScript literal 0.005 (one part in two
hundred is not a binary fraction, so the literal itself is already rounded). -/
def jsNum005 : ℚ :=
  fl64 (0.005 : ℚ)

/-- The binary64 value denoted by the JavaScript literal 0.0025. -/
def jsNum0025 : ℚ :=
  fl64 (0.0025 : ℚ)

/-- parseIBeacon (identical in all three source variants): UUID from bytes 2..17,
big-endian major at byte 18 and minor at byte 20.  The callers guard the call with
the length/magic precheck; the raw function throws on undersized buffers. -/
def parseIBeacon (data : List Nat) : Except Unit BeaconData := do
  let uuidBytes ← dvSlice data 2 16
  let uuid := bytesToUuid uuidBytes
  let major ← dvGetUint16 data 18
  let minor ← dvGetUint16 data 20
  pure (.iBeacon uuid major minor)

/-- The URL scheme table shared by every decodeEddystoneUrl variant. -/
def schemes : List String :=
  ["http://www.", "https://www.", "http://", "https://"]

/-- Expansion table of the first script.js variant (codes 10..13 without slash). -/
def expansionsV1 : List String :=
  [".com/", ".org/", ".edu/", ".net/", ".info/", ".biz/", ".gov/",
   ".com", ".org", ".edu", ".net", ".info", ".biz", ".gov"]

/-- Expansion table of the second script.js variant and of src/unnamed/part_000
(codes 10..13 carry a trailing slash). -/
def expansionsV2 : List String :=
  [".com/", ".org/", ".edu/", ".net/", ".info/", ".biz/", ".gov/",
   ".com", ".org", ".edu", ".net/", ".info/", ".biz/", ".gov/"]

/-- The decoding loop of decodeEddystoneUrl: bytes from index 3 on, an expansion
code below the table length appends the table entry, any other byte appends the
single character with that code, accumulating left to right. -/
def urlLoop (expansions : List String) (url : String) : List Nat → String
  | [] => url
  | code :: rest =>
      urlLoop expansions
        (url ++ (if code < expansions.length then expansions.getD code ""
                 else String.singleton (Char.ofNat code)))
        rest

/-- decodeEddystoneUrl over a given expansion table: scheme prefix from byte 2
(codes 0..3, anything else contributes nothing), then the decoding loop over the
bytes from index 3 to the end of the buffer. -/
def decodeEddystoneUrlWith (expansions : List String) (data : List Nat) :
    Except Unit String := do
  let schemeCode ← dvGetUint8 data 2
  let url := if schemeCode < schemes.length then schemes.getD schemeCode "" else ""
  pure (urlLoop expansions url (data.drop 3))

/-- decodeEddystoneUrl of the first script.js variant. -/
def decodeEddystoneUrlV1 (data : List Nat) : Except Unit String :=
  decodeEddystoneUrlWith expansionsV1 data

/-- decodeEddystoneUrl of the second script.js variant and of part_000. -/
def decodeEddystoneUrlV2 (data : List Nat) : Except Unit String :=
  decodeEddystoneUrlWith expansionsV2 data

/-- parseEddystone of the first script.js variant: reads the frame type byte with
no length check, decodes only URL frames (again with no length check), and returns
null for every other frame type. -/
def parseEddystoneV1 (data : List Nat) : Except Unit (Option BeaconData) := do
  let frameType ← dvGetUint8 data 0
  if frameType == 0x10 then do
    let url ← decodeEddystoneUrlV1 data
    pure (some (.eddystoneURL url))
  else
    pure none

/-- The frame-type switch shared verbatim by parseEddystone of the second script.js
variant and of part_000: UID (length precheck 18), URL (precheck 4), TLM
(precheck 14), anything else null. -/
def parseEddystoneSwitch (data : List Nat) : Except Unit (Option BeaconData) := do
  let frameType ← dvGetUint8 data 0
  match frameType with
  | 0x00 =>
    if data.length < 18 then pure none
    else do
      let namespaceBytes ← dvSlice data 2 10
      let instanceBytes ← dvSlice data 12 6
      pure (some (.eddystoneUID (bytesToHex namespaceBytes) (bytesToHex instanceBytes)))
  | 0x10 =>
    if data.length < 4 then pure none
    else do
      let url ← decodeEddystoneUrlV2 data
      pure (some (.eddystoneURL url))
  | 0x20 =>
    if data.length < 14 then pure none
    else do
      let battery ← dvGetUint16 data 2
      let tempInt ← dvGetInt8 data 4
      let tempFrac ← dvGetUint8 data 5
      let temperature : ℚ := (tempInt : ℚ) + (tempFrac : ℚ) / 256
      let packets ← dvGetUint32 data 6
      let uptime : ℚ := ((← dvGetUint32 data 10) : ℚ) / 10
      pure (some (.eddystoneTLM battery (jsToFixed 2 temperature) packets
        (jsToFixed 1 uptime)))
  | _ => pure none

/-- parseEddystone of the second script.js variant: an explicit empty-buffer check,
then the frame-type switch. -/
def parseEddystoneV2 (data : List Nat) : Except Unit (Option BeaconData) :=
  if data.length = 0 then pure none else parseEddystoneSwitch data

/-- parseEddystone of src/unnamed/part_000: the frame-type switch with no
empty-buffer check, so the frame-type read itself can throw. -/
def parseEddystoneP0 (data : List Nat) : Except Unit (Option BeaconData) :=
  parseEddystoneSwitch data

/-- parseRuuviTag (second script.js variant): reads the format byte with no length
check; format 5 requires 24 bytes and decodes temperature, humidity, pressure and
battery voltage; any other format byte yields null.  The temperature and humidity
scale factors are not binary fractions, so the binary64 rounding of the literal and
of each product is modelled explicitly with fl64; toFixed then renders the exact
value of the resulting double.  The pressure field needs no rounding operator: the
integer sum is below two to the 53 hence exact, and the binary64 quotient by 100
differs from the exact quotient by less than one part in ten to the 12, far inside
the same 2-decimal rendering (the quotient has exactly 2 decimals and toFixed
rounding is decided at distance one half).  The battery arithmetic is integer and
exact. -/
def parseRuuviTag (data : List Nat) : Except Unit (Option BeaconData) := do
  let format ← dvGetUint8 data 0
  if format == 0x05 then
    if data.length < 24 then pure none
    else do
      let temp ← dvGetInt16 data 1
      let humidity ← dvGetUint16 data 3
      let pressureRaw ← dvGetUint16 data 5
      let batteryInfo ← dvGetUint16 data 7
      pure (some (.ruuviTag
        (jsToFixed 2 (fl64 ((temp : ℚ) * jsNum005)))
        (jsToFixed 2 (fl64 ((humidity : ℚ) * jsNum0025)))
        (jsToFixed 2 (((pressureRaw : ℚ) + 50000) / 100))
        (Nat.shiftRight batteryInfo 5 + 1600)))
  else
    pure none

/-- The raw packet delivered by the scanning collaborator: stable device id, signal
strength, and the two keyed data sections. -/
structure RawAdvertisement where
  deviceId : String
  rssi : Int
  manufacturerData : List (Nat × List Nat)
  serviceData : List (Nat × List Nat)

/-- map.get(k) on the keyed data sections (first matching key). -/
def mapGet (m : List (Nat × List Nat)) (k : Nat) : Option (List Nat) :=
  (m.find? (fun p => p.1 == k)).map (fun p => p.2)

/-- map.has(k) on the keyed data sections. -/
def mapHas (m : List (Nat × List Nat)) (k : Nat) : Bool :=
  m.any (fun p => p.1 == k)

/-- The inline iBeacon precheck of handleAdvertisement:
data.byteLength >= 23 && data.getUint8(0) === 0x02 && data.getUint8(1) === 0x15. -/
def iBeaconPrecheck (data : List Nat) : Bool :=
  decide (23 ≤ data.length) && (data.getD 0 0 == 0x02) && (data.getD 1 0 == 0x15)

/-- The classification chain of handleAdvertisement (second script.js variant):
an if / else-if chain over key presence, with the GATT fallback in the final else.
A branch is entered on key presence alone; no later branch runs once one is
entered, whatever its payload decodes to. -/
def classifyAdvertisement (mfr svc : List (Nat × List Nat)) :
    Except Unit (Option BeaconData) :=
  match mapGet mfr 0x004C with
  | some data =>
    if iBeaconPrecheck data then do
      let b ← parseIBeacon data
      pure (some b)
    else
      pure none
  | none =>
    match mapGet svc 0xFEAA with
    | some data => parseEddystoneV2 data
    | none =>
      match mapGet mfr 0x0499 with
      | some data => parseRuuviTag data
      | none =>
        if mapHas svc 0x180F then pure (some (.gattService "Batteriedienst (0x180F)"))
        else if mapHas svc 0x181A then pure (some (.gattService "Umgebungssensor (0x181A)"))
        else if mapHas svc 0x180D then pure (some (.gattService "Herzfrequenzmesser (0x180D)"))
        else pure none

/-- The per-device record the registry keeps: the type tag fixed at creation and
the signal strength shown on the card. -/
structure StoredDevice where
  beaconType : String
  lastRssi : Int
deriving DecidableEq

/-- discoveredDevices: device id to stored record, in insertion order. -/
abbrev Registry := List (String × StoredDevice)

/-- The outward effect of processing one packet: no UI action, a new card, or an
RSSI-only refresh of an existing card. -/
inductive RegistryEvent where
  | ignored
  | created (deviceId : String) (b : BeaconData)
  | updated (deviceId : String)
deriving DecidableEq

/-- discoveredDevices.has(deviceId). -/
def hasDevice (st : Registry) (id : String) : Bool :=
  st.any (fun p => p.1 == id)

/-- discoveredDevices.get(deviceId). -/
def lookupDevice (st : Registry) (id : String) : Option StoredDevice :=
  (st.find? (fun p => p.1 == id)).map (fun p => p.2)

/-- updateBeaconCardRSSI: the existing record of the device keeps its type and gets
the fresh signal strength. -/
def updateRssi (st : Registry) (id : String) (r : Int) : Registry :=
  st.map (fun p => if p.1 == id then (p.1, { p.2 with lastRssi := r }) else p)

/-- handleAdvertisement (second script.js variant): classify the packet, discard a
null result, create a record on first sight, otherwise refresh only the signal
strength.  A thrown decoder error propagates with the registry untouched. -/
def handleAdvertisement (st : Registry) (a : RawAdvertisement) :
    Except Unit (Registry × RegistryEvent) := do
  let isNew := !(hasDevice st a.deviceId)
  let beaconData ← classifyAdvertisement a.manufacturerData a.serviceData
  match beaconData with
  | none => pure (st, .ignored)
  | some b =>
    if isNew then
      pure ((a.deviceId, ⟨b.typeTag, a.rssi⟩) :: st, .created a.deviceId b)
    else
      pure (updateRssi st a.deviceId a.rssi, .updated a.deviceId)

/-- The registry state after one packet: the new state on normal return, the old
state when the handler throws. -/
def stepAdvertisement (st : Registry) (a : RawAdvertisement) : Registry :=
  match handleAdvertisement st a with
  | .ok (st', _) => st'
  | .error _ => st

/-- One scanning session: packets processed in delivery order from an empty
registry. -/
def processSession (as : List RawAdvertisement) : Registry :=
  as.foldl stepAdvertisement []

/-- A packet counts as successfully classified when the classifier returns a
record (neither null nor a thrown error). -/
def classifiedOk (a : RawAdvertisement) : Bool :=
  match classifyAdvertisement a.manufacturerData a.serviceData with
  | .ok (some _) => true
  | _ => false

/-- The device ids stored in the registry. -/
def registryKeys (st : Registry) : List String :=
  st.map (fun p => p.1)

deriving instance DecidableEq for Except

/-- Big-endian unsigned 16-bit value at offset i, written directly over the byte
list (the reading the spec describes). -/
def beU16At (data : List Nat) (i : Nat) : Nat :=
  data.getD i 0 * 256 + data.getD (i + 1) 0

/-- Big-endian unsigned 32-bit value at offset i over the byte list. -/
def beU32At (data : List Nat) (i : Nat) : Nat :=
  ((data.getD i 0 * 256 + data.getD (i + 1) 0) * 256 + data.getD (i + 2) 0) * 256
    + data.getD (i + 3) 0

/-- A byte reinterpreted as a signed (two's complement) 8-bit value. -/
def int8val (b : Nat) : Int :=
  if b < 128 then (b : Int) else (b : Int) - 256

/-- A 16-bit value reinterpreted as a signed (two's complement) 16-bit value. -/
def int16val (v : Nat) : Int :=
  if v < 32768 then (v : Int) else (v : Int) - 65536

/-- An uppercase hexadecimal digit character. -/
def hexCharUpper (d : Nat) : Char :=
  if d < 10 then Char.ofNat (48 + d) else Char.ofNat (55 + d)

/-- A byte as two uppercase hexadecimal digit characters. -/
def byteHexUpper (b : Nat) : List Char :=
  [hexCharUpper (b / 16), hexCharUpper (b % 16)]

/-- The UUID rendering named by the specification: the 16 bytes as uppercase
hexadecimal pairs, grouped 8-4-4-4-12 characters with hyphens. -/
def uuidUppercaseGrouped (bytes : List Nat) : String :=
  String.mk (((jsSlice bytes 0 4).map byteHexUpper).flatten ++ '-' ::
    (((jsSlice bytes 4 6).map byteHexUpper).flatten ++ '-' ::
      (((jsSlice bytes 6 8).map byteHexUpper).flatten ++ '-' ::
        (((jsSlice bytes 8 10).map byteHexUpper).flatten ++ '-' ::
          ((jsSlice bytes 10 16).map byteHexUpper).flatten))))

/-- Example 1 of the specification: an iBeacon manufacturer payload, UUID bytes
0x01..0x10, major 1, minor 2, TX power byte 0. -/
def iBeaconExample1 : List Nat :=
  [0x02, 0x15, 0x01, 0x02, 0x03, 0x04, 0x05, 0x06, 0x07, 0x08, 0x09, 0x0A,
   0x0B, 0x0C, 0x0D, 0x0E, 0x0F, 0x10, 0x00, 0x01, 0x00, 0x02, 0x00]

/-- Example 2 of the specification: an Eddystone-URL frame, scheme 0, the ASCII
bytes of the word example, expansion code 0. -/
def urlExample2 : List Nat :=
  [0x10, 0x00, 0x00, 101, 120, 97, 109, 112, 108, 101, 0x00]

/-- Example 3 of the specification: an Eddystone-TLM frame, battery 3000 mV,
temperature 21.5, advertising count 100, uptime 36000 tenths of a second. -/
def tlmExample3 : List Nat :=
  [0x20, 0x00, 0x0B, 0xB8, 0x15, 0x80, 0x00, 0x00, 0x00, 0x64, 0x00, 0x00, 0x8C, 0xA0]

/-- Example 4 of the specification: a RuuviTag format-5 payload, temperature raw
400, humidity raw 20000, pressure raw 5000, padded with zeros to 24 bytes. -/
def ruuviExample4 : List Nat :=
  [0x05, 0x01, 0x90, 0x4E, 0x20, 0x13, 0x88] ++ List.replicate 17 0

/-- A registry holding one device whose record was created from an iBeacon packet. -/
def registryExample : Registry :=
  [("dev-1", ⟨"iBeacon", -40⟩)]

/-- A later packet from the same device that classifies as an Eddystone-URL,
a different variant than the stored record. -/
def advExampleUpdate : RawAdvertisement :=
  ⟨"dev-1", -55, [], [(0xFEAA, urlExample2)]⟩

/-- Service data advertising all three fallback GATT services at once. -/
def svcExampleGatt : List (Nat × List Nat) :=
  [(0x180F, []), (0x181A, []), (0x180D, [])]

/-- Manufacturer data whose 0x004C payload is too short to be an iBeacon. -/
def mfrExampleShort : List (Nat × List Nat) :=
  [(0x004C, [1, 2, 3])]

/-- Service data carrying a well-formed Eddystone-URL frame under key 0xFEAA. -/
def svcExampleUrl : List (Nat × List Nat) :=
  [(0xFEAA, urlExample2)]
theorem dvGetUint8_ok {data : List Nat} {i : Nat} (h : i < data.length) :
    dvGetUint8 data i = .ok (data.getD i 0) := by
  simp [dvGetUint8, h, List.getD_eq_getElem?_getD, List.getElem?_eq_getElem h,
    List.get_eq_getElem]

theorem dvGetUint16_ok {data : List Nat} {i : Nat} (h : i + 1 < data.length) :
    dvGetUint16 data i = .ok (beU16At data i) := by
  unfold dvGetUint16
  rw [dvGetUint8_ok (by omega), dvGetUint8_ok h]
  rfl

theorem dvGetUint32_ok {data : List Nat} {i : Nat} (h : i + 3 < data.length) :
    dvGetUint32 data i = .ok (beU32At data i) := by
  unfold dvGetUint32
  rw [dvGetUint8_ok (by omega), dvGetUint8_ok (by omega), dvGetUint8_ok (by omega),
    dvGetUint8_ok h]
  rfl

theorem dvGetInt8_ok {data : List Nat} {i : Nat} (h : i < data.length) :
    dvGetInt8 data i = .ok (int8val (data.getD i 0)) := by
  unfold dvGetInt8
  rw [dvGetUint8_ok h]
  rfl

theorem dvGetInt16_ok {data : List Nat} {i : Nat} (h : i + 1 < data.length) :
    dvGetInt16 data i = .ok (int16val (beU16At data i)) := by
  unfold dvGetInt16
  rw [dvGetUint16_ok h]
  rfl

theorem dvSlice_ok {data : List Nat} {off len : Nat} (h : off + len ≤ data.length) :
    dvSlice data off len = .ok ((data.drop off).take len) := by
  simp [dvSlice, h]
theorem urlLoop_acc (exp : List String) (l : List Nat) :
    ∀ url : String, urlLoop exp url l = url ++ urlLoop exp "" l := by
  induction l with
  | nil => intro url; simp [urlLoop]
  | cons c rest ih =>
    intro url
    rw [urlLoop, urlLoop, ih]
    conv_rhs => rw [ih]
    rw [String.empty_append, String.append_assoc]

theorem urlLoop_append (exp : List String) (l1 l2 : List Nat) (url : String) :
    urlLoop exp url (l1 ++ l2) = urlLoop exp (urlLoop exp url l1) l2 := by
  induction l1 generalizing url with
  | nil => rw [List.nil_append]; rfl
  | cons c rest ih => rw [List.cons_append, urlLoop, urlLoop, ih]

theorem decodeEddystoneUrlWith_snoc (exp : List String) (data : List Nat) (c : Nat)
    (h : 3 ≤ data.length) :
    decodeEddystoneUrlWith exp (data ++ [c]) =
      (decodeEddystoneUrlWith exp data).map
        (fun u => u ++ (if c < exp.length then exp.getD c ""
                        else String.singleton (Char.ofNat c))) := by
  unfold decodeEddystoneUrlWith
  rw [dvGetUint8_ok (show 2 < (data ++ [c]).length by simp; omega),
    dvGetUint8_ok (show 2 < data.length by omega)]
  rw [List.getD_append data [c] 0 2 (by omega)]
  rw [List.drop_append_of_le_length (by omega)]
  simp only [urlLoop_append]
  rfl
set_option maxRecDepth 4096 in
theorem padStart2_hex_upper :
    ∀ b < 256, (padStart2 (jsHexString b)).map Char.toUpper = byteHexUpper b := by
  decide

theorem flatten_take_two (ls : List (List Char)) (h : ∀ x ∈ ls, x.length = 2) :
    ∀ k, (ls.flatten).take (2 * k) = (ls.take k).flatten := by
  induction ls with
  | nil => intro k; simp
  | cons x xs ih =>
    intro k
    cases k with
    | zero => simp
    | succ k =>
      rw [List.flatten_cons]
      have hx : x.length = 2 := h x (by simp)
      have h2 : 2 * (k + 1) = x.length + 2 * k := by omega
      rw [h2, List.take_append, List.take_succ_cons, List.flatten_cons,
        ih (fun y hy => h y (by simp [hy]))]

theorem flatten_drop_two (ls : List (List Char)) (h : ∀ x ∈ ls, x.length = 2) :
    ∀ k, (ls.flatten).drop (2 * k) = (ls.drop k).flatten := by
  induction ls with
  | nil => intro k; simp
  | cons x xs ih =>
    intro k
    cases k with
    | zero => simp
    | succ k =>
      rw [List.flatten_cons]
      have hx : x.length = 2 := h x (by simp)
      have h2 : 2 * (k + 1) = x.length + 2 * k := by omega
      rw [h2, List.drop_append, List.drop_succ_cons,
        ih (fun y hy => h y (by simp [hy]))]
theorem hexSlice_upper (bytes : List Nat) (hb : ∀ b ∈ bytes, b < 256) (j k : Nat) :
    (jsSlice ((bytes.map (fun b => padStart2 (jsHexString b))).flatten) (2*j) (2*k)).map
        Char.toUpper
      = ((jsSlice bytes j k).map byteHexUpper).flatten := by
  have huni : ∀ x ∈ bytes.map (fun b => padStart2 (jsHexString b)), x.length = 2 := by
    intro x hx
    obtain ⟨b, hbm, rfl⟩ := List.mem_map.1 hx
    have h2 := padStart2_hex_upper b (hb b hbm)
    have := congrArg List.length h2
    simpa [byteHexUpper] using this
  unfold jsSlice
  have h2k : 2*k - 2*j = 2*(k - j) := by omega
  rw [h2k, flatten_drop_two _ huni j,
    flatten_take_two _ (fun y hy => huni y (List.mem_of_mem_drop hy)) (k - j)]
  rw [← List.map_drop, ← List.map_take, List.map_flatten, List.map_map]
  exact congrArg List.flatten (List.map_congr_left (fun b hbm =>
    padStart2_hex_upper b (hb b (List.mem_of_mem_drop (List.mem_of_mem_take hbm)))))

theorem bytesToUuid_eq_grouped (bytes : List Nat) (hb : ∀ b ∈ bytes, b < 256) :
    bytesToUuid bytes = uuidUppercaseGrouped bytes := by
  unfold bytesToUuid uuidUppercaseGrouped
  have hdash : Char.toUpper '-' = '-' := by decide
  have g1 : (jsSlice ((bytes.map (fun b => padStart2 (jsHexString b))).flatten) 0 8).map
      Char.toUpper = ((jsSlice bytes 0 4).map byteHexUpper).flatten :=
    hexSlice_upper bytes hb 0 4
  have g2 : (jsSlice ((bytes.map (fun b => padStart2 (jsHexString b))).flatten) 8 12).map
      Char.toUpper = ((jsSlice bytes 4 6).map byteHexUpper).flatten :=
    hexSlice_upper bytes hb 4 6
  have g3 : (jsSlice ((bytes.map (fun b => padStart2 (jsHexString b))).flatten) 12 16).map
      Char.toUpper = ((jsSlice bytes 6 8).map byteHexUpper).flatten :=
    hexSlice_upper bytes hb 6 8
  have g4 : (jsSlice ((bytes.map (fun b => padStart2 (jsHexString b))).flatten) 16 20).map
      Char.toUpper = ((jsSlice bytes 8 10).map byteHexUpper).flatten :=
    hexSlice_upper bytes hb 8 10
  have g5 : (jsSlice ((bytes.map (fun b => padStart2 (jsHexString b))).flatten) 20 32).map
      Char.toUpper = ((jsSlice bytes 10 16).map byteHexUpper).flatten :=
    hexSlice_upper bytes hb 10 16
  simp only [List.map_append, List.map_cons, hdash, g1, g2, g3, g4, g5]

/-- Claim C1: the spec promises every decoder is total on arbitrary buffers, but the
cited parseEddystone variants (first script.js variant and part_000) read the frame
type byte of an empty buffer, which throws, and the first variant even decodes a
3-byte URL frame (below the minimum length 4) to a record; parseRuuviTag and the
unguarded parseIBeacon also throw on the empty buffer. -/
theorem parseEddystone_totality_bug :
    parseEddystoneV1 [] = .error () ∧
    parseEddystoneP0 [] = .error () ∧
    parseRuuviTag [] = .error () ∧
    parseIBeacon [] = .error () ∧
    parseEddystoneV1 [0x10] = .error () ∧
    parseEddystoneV1 [0x10, 0x00, 0x00] = .ok (some (.eddystoneURL "http://www.")) := by
  decide

/-- Claim C2 counterexample: a packet whose 0x004C manufacturer payload fails the
iBeacon check and whose service data carries a decodable 0xFEAA Eddystone-URL frame
classifies to no result; the claimed fall-through dispatch to the Eddystone decoder
does not happen. -/
theorem classifier_fallthrough_cex :
    classifyAdvertisement mfrExampleShort svcExampleUrl = .ok none ∧
    parseEddystoneV2 urlExample2 = .ok (some (.eddystoneURL "http://www.example.com/")) ∧
    classifyAdvertisement mfrExampleShort svcExampleUrl ≠ parseEddystoneV2 urlExample2 := by
  decide

/-- Claim C2 amended: rule 1 is entered on mere presence of key 0x004C; when that
payload fails the iBeacon precheck the packet yields no result and no further rule
runs; the 0xFEAA payload is dispatched to the Eddystone decoder only when key
0x004C is absent. -/
theorem classifier_ibeacon_key_gates :
    (∀ (mfr svc : List (Nat × List Nat)) (d : List Nat),
        mapGet mfr 0x004C = some d → iBeaconPrecheck d = false →
        classifyAdvertisement mfr svc = .ok none) ∧
    (∀ (mfr svc : List (Nat × List Nat)) (e : List Nat),
        mapGet mfr 0x004C = none → mapGet svc 0xFEAA = some e →
        classifyAdvertisement mfr svc = parseEddystoneV2 e) := by
  constructor
  · intro mfr svc d hd hpre
    simp only [classifyAdvertisement, hd]
    rw [if_neg (by simp [hpre])]
    rfl
  · intro mfr svc e hm hs
    simp only [classifyAdvertisement, hm, hs]

/-- Claim C2 witness: the amended rule evaluated on the counterexample packet. -/
theorem classifier_ibeacon_key_gates_witness :
    classifyAdvertisement mfrExampleShort svcExampleUrl = .ok none :=
  classifier_ibeacon_key_gates.1 mfrExampleShort svcExampleUrl [1, 2, 3]
    (by decide) (by decide)

/-- Claim C8: when none of the keys 0x004C, 0xFEAA, 0x0499 is present, the first
present key in the fixed priority 0x180F, 0x181A, 0x180D names the announced GATT
service, later keys being ignored. -/
theorem classifier_gatt_priority :
    ∀ (mfr svc : List (Nat × List Nat)),
      mapGet mfr 0x004C = none → mapGet svc 0xFEAA = none → mapGet mfr 0x0499 = none →
      ((mapHas svc 0x180F = true →
          classifyAdvertisement mfr svc =
            .ok (some (.gattService "Batteriedienst (0x180F)"))) ∧
       (mapHas svc 0x180F = false → mapHas svc 0x181A = true →
          classifyAdvertisement mfr svc =
            .ok (some (.gattService "Umgebungssensor (0x181A)"))) ∧
       (mapHas svc 0x180F = false → mapHas svc 0x181A = false → mapHas svc 0x180D = true →
          classifyAdvertisement mfr svc =
            .ok (some (.gattService "Herzfrequenzmesser (0x180D)")))) := by
  intro mfr svc h1 h2 h3
  refine ⟨?_, ?_, ?_⟩
  · intro hf
    simp only [classifyAdvertisement, h1, h2, h3, hf]
    rfl
  · intro hf he
    simp only [classifyAdvertisement, h1, h2, h3, hf, he]
    rfl
  · intro hf he hh
    simp only [classifyAdvertisement, h1, h2, h3, hf, he, hh]
    rfl

/-- Claim C8 witness: a packet advertising all three fallback services at once is
announced as the battery service, the first in priority order. -/
theorem classifier_gatt_priority_witness :
    classifyAdvertisement [] svcExampleGatt =
      .ok (some (.gattService "Batteriedienst (0x180F)")) ∧
    mapHas svcExampleGatt 0x181A = true ∧ mapHas svcExampleGatt 0x180D = true :=
  ⟨(classifier_gatt_priority [] svcExampleGatt (by decide) (by decide) (by decide)).1
      (by decide), by decide, by decide⟩
theorem registryKeys_updateRssi (st : Registry) (id : String) (r : Int) :
    registryKeys (updateRssi st id r) = registryKeys st := by
  unfold registryKeys updateRssi
  rw [List.map_map]
  exact List.map_congr_left (fun p _ => by by_cases hp : p.1 = id <;> simp [hp])

theorem lookupDevice_updateRssi_self (st : Registry) (id : String) (r : Int) :
    lookupDevice (updateRssi st id r) id =
      (lookupDevice st id).map (fun d => ⟨d.beaconType, r⟩) := by
  induction st with
  | nil => rfl
  | cons p rest ih =>
    cases hbeq : (p.1 == id) with
    | true =>
      have hp : p.1 = id := by simpa using hbeq
      simp [updateRssi, lookupDevice, List.find?_cons, hp]
    | false =>
      simp only [updateRssi, List.map_cons, hbeq, Bool.false_eq_true, if_false]
      simp only [lookupDevice, List.find?_cons, hbeq]
      exact ih

theorem lookupDevice_updateRssi_other (st : Registry) (id id' : String) (r : Int)
    (h : id' ≠ id) :
    lookupDevice (updateRssi st id r) id' = lookupDevice st id' := by
  induction st with
  | nil => rfl
  | cons p rest ih =>
    cases hbeq : (p.1 == id) with
    | true =>
      have hne : (p.1 == id') = false := by
        have : p.1 = id := by simpa using hbeq
        simp [this, Ne.symm h]
      simp only [updateRssi, List.map_cons, hbeq, if_true]
      simp only [lookupDevice, List.find?_cons, hne]
      exact ih
    | false =>
      simp only [updateRssi, List.map_cons, hbeq, Bool.false_eq_true, if_false]
      cases hbeq' : (p.1 == id') with
      | true => simp [lookupDevice, List.find?_cons, hbeq']
      | false =>
        simp only [lookupDevice, List.find?_cons, hbeq']
        exact ih

theorem hasDevice_iff_mem (st : Registry) (id : String) :
    hasDevice st id = true ↔ id ∈ registryKeys st := by
  rw [hasDevice, registryKeys, List.any_eq_true]
  constructor
  · rintro ⟨x, hx, hpx⟩
    exact List.mem_map.2 ⟨x, hx, by simpa using hpx⟩
  · intro hmem
    obtain ⟨x, hx, hfx⟩ := List.mem_map.1 hmem
    exact ⟨x, hx, by simp [hfx]⟩

theorem hasDevice_lookup (st : Registry) (id : String) (h : hasDevice st id = true) :
    ∃ d, lookupDevice st id = some d := by
  unfold hasDevice at h
  rw [List.any_eq_true] at h
  obtain ⟨x, hx, hpx⟩ := h
  unfold lookupDevice
  cases hf : st.find? (fun p => p.1 == id) with
  | some p => exact ⟨p.2, by simp⟩
  | none =>
    rw [List.find?_eq_none] at hf
    exact absurd hpx (by simpa using hf x hx)

theorem handleAdvertisement_updated (st : Registry) (a : RawAdvertisement) (b : BeaconData)
    (hc : classifyAdvertisement a.manufacturerData a.serviceData = .ok (some b))
    (hh : hasDevice st a.deviceId = true) :
    handleAdvertisement st a = .ok (updateRssi st a.deviceId a.rssi, .updated a.deviceId) := by
  unfold handleAdvertisement
  rw [hc, hh]
  rfl

theorem handleAdvertisement_created (st : Registry) (a : RawAdvertisement) (b : BeaconData)
    (hc : classifyAdvertisement a.manufacturerData a.serviceData = .ok (some b))
    (hh : hasDevice st a.deviceId = false) :
    handleAdvertisement st a =
      .ok ((a.deviceId, ⟨b.typeTag, a.rssi⟩) :: st, .created a.deviceId b) := by
  unfold handleAdvertisement
  rw [hc, hh]
  rfl

theorem handleAdvertisement_ignored (st : Registry) (a : RawAdvertisement)
    (hc : classifyAdvertisement a.manufacturerData a.serviceData = .ok none) :
    handleAdvertisement st a = .ok (st, .ignored) := by
  unfold handleAdvertisement
  rw [hc]
  rfl

theorem handleAdvertisement_error (st : Registry) (a : RawAdvertisement)
    (hc : classifyAdvertisement a.manufacturerData a.serviceData = .error ()) :
    handleAdvertisement st a = .error () := by
  unfold handleAdvertisement
  rw [hc]
  rfl

/-- Claim C3: a successfully classified packet for an already-registered device
produces exactly an RSSI-only update: the handler returns the updated event, every
stored record keeps its beaconType (whatever variant the new packet decodes to),
the target record takes the fresh rssi, and every other record is untouched. -/
theorem registry_update_rssi_only :
    ∀ (st : Registry) (a : RawAdvertisement) (b : BeaconData),
      hasDevice st a.deviceId = true →
      classifyAdvertisement a.manufacturerData a.serviceData = .ok (some b) →
      handleAdvertisement st a =
          .ok (updateRssi st a.deviceId a.rssi, .updated a.deviceId) ∧
      (∀ i, (lookupDevice (updateRssi st a.deviceId a.rssi) i).map
            StoredDevice.beaconType
          = (lookupDevice st i).map StoredDevice.beaconType) ∧
      (lookupDevice (updateRssi st a.deviceId a.rssi) a.deviceId).map
          StoredDevice.lastRssi = some a.rssi ∧
      (∀ i, i ≠ a.deviceId →
          lookupDevice (updateRssi st a.deviceId a.rssi) i = lookupDevice st i) := by
  intro st a b hh hc
  refine ⟨handleAdvertisement_updated st a b hc hh, ?_, ?_, ?_⟩
  · intro i
    by_cases hid : i = a.deviceId
    · subst hid
      rw [lookupDevice_updateRssi_self]
      cases hl : lookupDevice st a.deviceId
      · rfl
      · rfl
    · rw [lookupDevice_updateRssi_other st a.deviceId i a.rssi hid]
  · obtain ⟨d, hd⟩ := hasDevice_lookup st a.deviceId hh
    rw [lookupDevice_updateRssi_self, hd]
    rfl
  · intro i hid
    exact lookupDevice_updateRssi_other st a.deviceId i a.rssi hid

/-- Claim C3 witness: a device registered as an iBeacon receives a packet that
classifies as an Eddystone-URL; only the stored rssi changes. -/
theorem registry_update_rssi_only_witness :
    handleAdvertisement registryExample advExampleUpdate =
        .ok ([("dev-1", ⟨"iBeacon", -55⟩)], .updated "dev-1") ∧
    (lookupDevice (updateRssi registryExample advExampleUpdate.deviceId
        advExampleUpdate.rssi) advExampleUpdate.deviceId).map
      StoredDevice.beaconType = some "iBeacon" := by
  have h := registry_update_rssi_only registryExample advExampleUpdate
    (.eddystoneURL "http://www.example.com/") (by decide) (by decide)
  refine ⟨?_, ?_⟩
  · rw [h.1]
    decide
  · rw [h.2.1 advExampleUpdate.deviceId]
    decide
theorem stepAdvertisement_keys (st : Registry) (a : RawAdvertisement) :
    registryKeys (stepAdvertisement st a) =
      if (classifiedOk a && !(hasDevice st a.deviceId)) = true
      then a.deviceId :: registryKeys st
      else registryKeys st := by
  cases hc : classifyAdvertisement a.manufacturerData a.serviceData with
  | error e =>
    cases e
    have h1 : stepAdvertisement st a = st := by
      unfold stepAdvertisement
      rw [handleAdvertisement_error st a hc]
    have h2 : classifiedOk a = false := by
      unfold classifiedOk
      rw [hc]
    rw [h1, h2]
    simp
  | ok ob =>
    cases ob with
    | none =>
      have h1 : stepAdvertisement st a = st := by
        unfold stepAdvertisement
        rw [handleAdvertisement_ignored st a hc]
      have h2 : classifiedOk a = false := by
        unfold classifiedOk
        rw [hc]
      rw [h1, h2]
      simp
    | some b =>
      have h2 : classifiedOk a = true := by
        unfold classifiedOk
        rw [hc]
      cases hh : hasDevice st a.deviceId with
      | false =>
        have h1 : stepAdvertisement st a = (a.deviceId, ⟨b.typeTag, a.rssi⟩) :: st := by
          unfold stepAdvertisement
          rw [handleAdvertisement_created st a b hc hh]
        rw [h1, h2]
        simp [registryKeys]
      | true =>
        have h1 : stepAdvertisement st a = updateRssi st a.deviceId a.rssi := by
          unfold stepAdvertisement
          rw [handleAdvertisement_updated st a b hc hh]
        rw [h1, h2, registryKeys_updateRssi]
        simp

theorem processKeys_aux :
    ∀ (as : List RawAdvertisement) (st : Registry),
      (registryKeys st).Nodup →
      (registryKeys (as.foldl stepAdvertisement st)).Nodup ∧
      (registryKeys (as.foldl stepAdvertisement st)).toFinset =
        (registryKeys st).toFinset ∪
          ((as.filter classifiedOk).map (fun a => a.deviceId)).toFinset := by
  intro as
  induction as with
  | nil =>
    intro st h
    refine ⟨h, ?_⟩
    simp
  | cons a as ih =>
    intro st hnd
    rw [List.foldl_cons]
    have hkeys := stepAdvertisement_keys st a
    cases hca : classifiedOk a with
    | false =>
      have hsame : registryKeys (stepAdvertisement st a) = registryKeys st := by
        rw [hkeys, hca]
        simp
      have ih' := ih (stepAdvertisement st a) (by rw [hsame]; exact hnd)
      rw [List.filter_cons, hca]
      refine ⟨ih'.1, ?_⟩
      rw [ih'.2, hsame]
      simp
    | true =>
      cases hh : hasDevice st a.deviceId with
      | true =>
        have hsame : registryKeys (stepAdvertisement st a) = registryKeys st := by
          rw [hkeys, hca, hh]
          simp
        have ih' := ih (stepAdvertisement st a) (by rw [hsame]; exact hnd)
        have hmem : a.deviceId ∈ (registryKeys st).toFinset :=
          List.mem_toFinset.2 ((hasDevice_iff_mem st a.deviceId).1 hh)
        rw [List.filter_cons, hca]
        refine ⟨ih'.1, ?_⟩
        rw [ih'.2, hsame]
        simp only [if_true, List.map_cons, List.toFinset_cons]
        rw [Finset.union_insert, Finset.insert_eq_self.2 (Finset.mem_union_left _ hmem)]
      | false =>
        have hcons : registryKeys (stepAdvertisement st a) =
            a.deviceId :: registryKeys st := by
          rw [hkeys, hca, hh]
          simp
        have hnotmem : a.deviceId ∉ registryKeys st := by
          intro hm
          rw [(hasDevice_iff_mem st a.deviceId).2 hm] at hh
          exact Bool.true_eq_false.mp hh |>.elim
        have ih' := ih (stepAdvertisement st a)
          (by rw [hcons]; exact List.nodup_cons.2 ⟨hnotmem, hnd⟩)
        rw [List.filter_cons, hca]
        refine ⟨ih'.1, ?_⟩
        rw [ih'.2, hcons]
        simp only [if_true, List.map_cons, List.toFinset_cons]
        rw [Finset.insert_union, Finset.union_insert]

/-- Claim C9: the registry keys after one packet are either unchanged or extended
by exactly the packet device id (when it classifies and is new), and the registry
size after a whole session equals the number of distinct device ids among the
successfully classified packets. -/
theorem registry_size_distinct_classified :
    (∀ (st : Registry) (a : RawAdvertisement),
        registryKeys (stepAdvertisement st a) =
          if (classifiedOk a && !(hasDevice st a.deviceId)) = true
          then a.deviceId :: registryKeys st
          else registryKeys st) ∧
    (∀ as : List RawAdvertisement,
        (processSession as).length =
          ((as.filter classifiedOk).map (fun a => a.deviceId)).toFinset.card) := by
  refine ⟨stepAdvertisement_keys, ?_⟩
  intro as
  unfold processSession
  have h := processKeys_aux as [] (by simp [registryKeys])
  have hlen : (List.foldl stepAdvertisement [] as).length =
      (registryKeys (List.foldl stepAdvertisement [] as)).length := by
    unfold registryKeys
    rw [List.length_map]
  rw [hlen, ← List.toFinset_card_of_nodup h.1, h.2]
  simp [registryKeys]

/-- Claim C4: a 0x004C payload of length at least 23 with the iBeacon magic decodes
to the UUID of bytes 2..17 rendered as uppercase hex grouped 8-4-4-4-12, the
big-endian major at byte 18 and minor at byte 20. -/
theorem parseIBeacon_fields :
    ∀ data : List Nat, 23 ≤ data.length → (∀ b ∈ data, b < 256) →
      data.getD 0 0 = 0x02 → data.getD 1 0 = 0x15 →
      parseIBeacon data = .ok (.iBeacon (uuidUppercaseGrouped (jsSlice data 2 18))
        (beU16At data 18) (beU16At data 20)) := by
  intro data hlen hb h0 h1
  have hev : parseIBeacon data = .ok (.iBeacon (bytesToUuid ((data.drop 2).take 16))
      (beU16At data 18) (beU16At data 20)) := by
    unfold parseIBeacon
    rw [dvSlice_ok (by omega), dvGetUint16_ok (by omega), dvGetUint16_ok (by omega)]
    rfl
  rw [hev, bytesToUuid_eq_grouped _
    (fun b hbm => hb b (List.mem_of_mem_drop (List.mem_of_mem_take hbm)))]
  rfl

/-- Claim C4 witness: the Example 1 payload decodes to the expected UUID string,
major 1 and minor 2. -/
theorem parseIBeacon_fields_witness :
    parseIBeacon iBeaconExample1 =
      .ok (.iBeacon "01020304-0506-0708-090A-0B0C0D0E0F10" 1 2) := by
  rw [parseIBeacon_fields iBeaconExample1 (by decide) (by decide) (by decide) (by decide)]
  decide

/-- Claim C7: a scheme code 0..3 contributes the matching prefix, a code of 4 or
more contributes nothing while the remaining bytes still decode, an expansion code
below the table length 14 appends that table entry, and Example 2 decodes to
http://www.example.com/ under both observed tables. -/
theorem decodeEddystoneUrl_scheme_and_expansion :
    (∀ data : List Nat, 3 ≤ data.length → data.getD 2 0 < 4 →
        decodeEddystoneUrlV1 data =
          .ok (schemes.getD (data.getD 2 0) "" ++ urlLoop expansionsV1 "" (data.drop 3))) ∧
    (∀ data : List Nat, 3 ≤ data.length → 4 ≤ data.getD 2 0 →
        decodeEddystoneUrlV1 data = .ok (urlLoop expansionsV1 "" (data.drop 3))) ∧
    (∀ (data : List Nat) (c : Nat), 3 ≤ data.length → c < 14 →
        decodeEddystoneUrlV1 (data ++ [c]) =
          (decodeEddystoneUrlV1 data).map (fun u => u ++ expansionsV1.getD c "")) ∧
    decodeEddystoneUrlV1 urlExample2 = .ok "http://www.example.com/" ∧
    decodeEddystoneUrlV2 urlExample2 = .ok "http://www.example.com/" := by
  have hev : ∀ data : List Nat, 3 ≤ data.length →
      decodeEddystoneUrlV1 data = .ok (urlLoop expansionsV1
        (if data.getD 2 0 < schemes.length then schemes.getD (data.getD 2 0) "" else "")
        (data.drop 3)) := by
    intro data hlen
    unfold decodeEddystoneUrlV1 decodeEddystoneUrlWith
    rw [dvGetUint8_ok (by omega)]
    rfl
  refine ⟨?_, ?_, ?_, by decide, by decide⟩
  · intro data hlen hs
    rw [hev data hlen, if_pos (show data.getD 2 0 < schemes.length by
      simpa [schemes] using hs), urlLoop_acc]
  · intro data hlen hs
    rw [hev data hlen, if_neg (show ¬ data.getD 2 0 < schemes.length by
      rw [show schemes.length = 4 from rfl]; omega)]
  · intro data c hlen hc
    have hify : (if c < expansionsV1.length then expansionsV1.getD c ""
        else String.singleton (Char.ofNat c)) = expansionsV1.getD c "" :=
      if_pos (show c < expansionsV1.length by simp [expansionsV1]; omega)
    have hsn := decodeEddystoneUrlWith_snoc expansionsV1 data c hlen
    rw [hify] at hsn
    exact hsn

/-- Claim C7 witness: the general scheme rule applied to the Example 2 payload. -/
theorem decodeEddystoneUrl_scheme_and_expansion_witness :
    decodeEddystoneUrlV1 urlExample2 =
      .ok (schemes.getD (urlExample2.getD 2 0) "" ++
        urlLoop expansionsV1 "" (urlExample2.drop 3)) :=
  decodeEddystoneUrl_scheme_and_expansion.1 urlExample2 (by decide) (by decide)

/-- Claim C10: every byte of value 14 or more from index 3 on is appended verbatim
as the single character with that code point, under both observed tables; the
decoded URL can therefore contain control characters and non-ASCII code points. -/
theorem decodeEddystoneUrl_verbatim_high_bytes :
    (∀ (data : List Nat) (c : Nat), 3 ≤ data.length → 14 ≤ c →
        decodeEddystoneUrlV1 (data ++ [c]) =
          (decodeEddystoneUrlV1 data).map
            (fun u => u ++ String.singleton (Char.ofNat c))) ∧
    (∀ (data : List Nat) (c : Nat), 3 ≤ data.length → 14 ≤ c →
        decodeEddystoneUrlV2 (data ++ [c]) =
          (decodeEddystoneUrlV2 data).map
            (fun u => u ++ String.singleton (Char.ofNat c))) ∧
    decodeEddystoneUrlV1 [0x10, 0x00, 0x00, 31, 200] =
      .ok ("http://www." ++ String.singleton (Char.ofNat 31) ++
        String.singleton (Char.ofNat 200)) := by
  refine ⟨?_, ?_, by decide⟩
  · intro data c hlen hc
    have hify : (if c < expansionsV1.length then expansionsV1.getD c ""
        else String.singleton (Char.ofNat c)) = String.singleton (Char.ofNat c) :=
      if_neg (show ¬ c < expansionsV1.length by simp [expansionsV1]; omega)
    have hsn := decodeEddystoneUrlWith_snoc expansionsV1 data c hlen
    rw [hify] at hsn
    exact hsn
  · intro data c hlen hc
    have hify : (if c < expansionsV2.length then expansionsV2.getD c ""
        else String.singleton (Char.ofNat c)) = String.singleton (Char.ofNat c) :=
      if_neg (show ¬ c < expansionsV2.length by simp [expansionsV2]; omega)
    have hsn := decodeEddystoneUrlWith_snoc expansionsV2 data c hlen
    rw [hify] at hsn
    exact hsn

/-- Claim C10 witness: a byte of value 200 appended to a minimal URL frame is
appended to the decoded string as the single character with code point 200. -/
theorem decodeEddystoneUrl_verbatim_high_bytes_witness :
    decodeEddystoneUrlV1 ([0x10, 0x00, 0x00] ++ [200]) =
      (decodeEddystoneUrlV1 [0x10, 0x00, 0x00]).map
        (fun u => u ++ String.singleton (Char.ofNat 200)) :=
  decodeEddystoneUrl_verbatim_high_bytes.1 [0x10, 0x00, 0x00] 200 (by decide) (by decide)
theorem exceptOk_bind {α β : Type} (a : α) (f : α → Except Unit β) :
    (Except.ok a : Except Unit α) >>= f = f a := rfl

theorem jsToFixed_eval (f : Nat) (q : ℚ) (n : Nat) (h0 : ¬ q < 0)
    (h : ⌊q * (10 : ℚ) ^ f + 1 / 2⌋ = (n : ℤ)) : jsToFixed f q = natDecimals f n := by
  unfold jsToFixed jsToFixedPos
  rw [if_neg h0, h, Int.toNat_natCast]

theorem parseEddystoneSwitch_tlm (data : List Nat) (h0 : data.getD 0 0 = 0x20)
    (hlen : 14 ≤ data.length) :
    parseEddystoneSwitch data = .ok (some (.eddystoneTLM (beU16At data 2)
      (jsToFixed 2 ((int8val (data.getD 4 0) : ℚ) + (data.getD 5 0 : ℚ) / 256))
      (beU32At data 6)
      (jsToFixed 1 ((beU32At data 10 : ℚ) / 10)))) := by
  have h14 : ¬ data.length < 14 := by omega
  unfold parseEddystoneSwitch
  rw [dvGetUint8_ok (show (0 : Nat) < data.length by omega), h0, exceptOk_bind]
  simp only [h14, if_false,
    dvGetUint16_ok (show 2 + 1 < data.length by omega),
    dvGetInt8_ok (show (4 : Nat) < data.length by omega),
    dvGetUint8_ok (show (5 : Nat) < data.length by omega),
    dvGetUint32_ok (show 6 + 3 < data.length by omega),
    dvGetUint32_ok (show 10 + 3 < data.length by omega),
    exceptOk_bind]
  rfl

/-- Claim C6: a 0xFEAA payload with frame type 0x20 and length at least 14 decodes
to battery millivolts from bytes 2..3, the signed 8.8 fixed-point temperature of
bytes 4..5 rendered with 2 decimals, the big-endian count of bytes 6..9, and the
uptime of bytes 10..13 divided by 10 rendered with 1 decimal, in both the second
script.js variant and part_000. -/
theorem parseEddystone_tlm_fields :
    ∀ data : List Nat, data.getD 0 0 = 0x20 → 14 ≤ data.length →
      parseEddystoneV2 data = .ok (some (.eddystoneTLM (beU16At data 2)
        (jsToFixed 2 ((int8val (data.getD 4 0) : ℚ) + (data.getD 5 0 : ℚ) / 256))
        (beU32At data 6)
        (jsToFixed 1 ((beU32At data 10 : ℚ) / 10)))) ∧
      parseEddystoneP0 data = parseEddystoneV2 data := by
  intro data h0 hlen
  have hne : ¬ data.length = 0 := by omega
  have hsw := parseEddystoneSwitch_tlm data h0 hlen
  constructor
  · unfold parseEddystoneV2
    rw [if_neg hne]
    exact hsw
  · unfold parseEddystoneV2 parseEddystoneP0
    rw [if_neg hne]

/-- Claim C6 witness: the Example 3 payload yields battery 3000, temperature
21.50, packet count 100 and uptime 3600.0. -/
theorem parseEddystone_tlm_fields_witness :
    parseEddystoneV2 tlmExample3 =
      .ok (some (.eddystoneTLM 3000 "21.50" 100 "3600.0")) := by
  have h := (parseEddystone_tlm_fields tlmExample3 (by decide) (by decide)).1
  rw [h]
  have e2 : beU16At tlmExample3 2 = 3000 := by decide
  have e4 : tlmExample3.getD 4 0 = 21 := by decide
  have e5 : tlmExample3.getD 5 0 = 128 := by decide
  have e6 : beU32At tlmExample3 6 = 100 := by decide
  have e10 : beU32At tlmExample3 10 = 36000 := by decide
  rw [e2, e4, e5, e6, e10]
  have i1 : int8val 21 = (21 : ℤ) := by decide
  rw [i1]
  have t1 : jsToFixed 2 (((21 : ℤ) : ℚ) + ((128 : ℕ) : ℚ) / 256) = "21.50" := by
    rw [jsToFixed_eval 2 _ 2150 (by norm_num)
      (by rw [Int.floor_eq_iff]; constructor <;> norm_num)]
    decide
  have t2 : jsToFixed 1 (((36000 : ℕ) : ℚ) / 10) = "3600.0" := by
    rw [jsToFixed_eval 1 _ 36000 (by norm_num)
      (by rw [Int.floor_eq_iff]; constructor <;> norm_num)]
    decide
  rw [t1, t2]

theorem roundHalfEven_of_lt (x : ℚ) (n : ℤ) (hf : ⌊x⌋ = n) (h : x - n < 1/2) :
    roundHalfEven x = n := by
  unfold roundHalfEven
  rw [hf, if_pos h]

theorem roundHalfEven_of_gt (x : ℚ) (n : ℤ) (hf : ⌊x⌋ = n) (h : 1/2 < x - n) :
    roundHalfEven x = n + 1 := by
  unfold roundHalfEven
  rw [hf, if_neg (by linarith), if_pos h]

theorem intLog_eval (q : ℚ) (e : ℤ) (hq : 0 < q) (h1 : (2 : ℚ) ^ e ≤ q)
    (h2 : q < (2 : ℚ) ^ (e + 1)) : Int.log 2 q = e := by
  have hb : 1 < (2 : ℕ) := by norm_num
  have hcast : (((2 : ℕ) : ℚ)) = (2 : ℚ) := by norm_num
  have hle : e ≤ Int.log 2 q := (Int.zpow_le_iff_le_log hb hq).1 (by rw [hcast]; exact h1)
  have hlt : Int.log 2 q < e + 1 := (Int.lt_zpow_iff_log_lt hb hq).1 (by rw [hcast]; exact h2)
  omega

theorem fl64_eval_pos (q : ℚ) (e m : ℤ) (hq : 0 < q) (hl : Int.log 2 q = e)
    (hm : roundHalfEven (q * (2 : ℚ) ^ ((52 : ℤ) - e)) = m) :
    fl64 q = (m : ℚ) * (2 : ℚ) ^ (e - (52 : ℤ)) := by
  unfold fl64 fl64Pos
  rw [if_neg (ne_of_gt hq), if_neg (by linarith), hl, hm]

theorem jsNum005_eval : jsNum005 = (5764607523034235 : ℚ) * (2 : ℚ) ^ ((-60 : ℤ)) := by
  have h0 := fl64_eval_pos (0.005 : ℚ) (-8) 5764607523034235 (by norm_num)
    (intLog_eval _ _ (by norm_num) (by norm_num) (by norm_num))
    (roundHalfEven_of_gt _ 5764607523034234
      (by rw [Int.floor_eq_iff]; constructor <;> norm_num) (by norm_num))
  simpa [jsNum005] using h0

theorem jsNum0025_eval : jsNum0025 = (5764607523034235 : ℚ) * (2 : ℚ) ^ ((-61 : ℤ)) := by
  have h0 := fl64_eval_pos (0.0025 : ℚ) (-9) 5764607523034235 (by norm_num)
    (intLog_eval _ _ (by norm_num) (by norm_num) (by norm_num))
    (roundHalfEven_of_gt _ 5764607523034234
      (by rw [Int.floor_eq_iff]; constructor <;> norm_num) (by norm_num))
  simpa [jsNum0025] using h0

/-- Claim C5 amended: a format-5 payload of length at least 24 decodes temperature,
humidity, pressure and battery exactly as the program computes them (the two
non-dyadic scale factors and their products carry the explicit binary64 rounding);
a nonempty payload with a different format byte, or a format-5 payload shorter
than 24 bytes, yields no result (the empty payload instead throws, see the
counterexample). -/
theorem parseRuuviTag_fields :
    (∀ data : List Nat, data.getD 0 0 = 0x05 → 24 ≤ data.length →
        parseRuuviTag data = .ok (some (.ruuviTag
          (jsToFixed 2 (fl64 ((int16val (beU16At data 1) : ℚ) * jsNum005)))
          (jsToFixed 2 (fl64 ((beU16At data 3 : ℚ) * jsNum0025)))
          (jsToFixed 2 (((beU16At data 5 : ℚ) + 50000) / 100))
          (Nat.shiftRight (beU16At data 7) 5 + 1600)))) ∧
    (∀ data : List Nat, data ≠ [] → data.getD 0 0 ≠ 0x05 →
        parseRuuviTag data = .ok none) ∧
    (∀ data : List Nat, data.getD 0 0 = 0x05 → data ≠ [] → data.length < 24 →
        parseRuuviTag data = .ok none) := by
  refine ⟨?_, ?_, ?_⟩
  · intro data h0 hlen
    have h24 : ¬ data.length < 24 := by omega
    unfold parseRuuviTag
    rw [dvGetUint8_ok (show (0 : Nat) < data.length by omega), h0, exceptOk_bind,
      if_pos (show ((5 : Nat) == 5) = true from rfl), if_neg h24]
    simp only [dvGetInt16_ok (show 1 + 1 < data.length by omega),
      dvGetUint16_ok (show 3 + 1 < data.length by omega),
      dvGetUint16_ok (show 5 + 1 < data.length by omega),
      dvGetUint16_ok (show 7 + 1 < data.length by omega),
      exceptOk_bind]
    rfl
  · intro data hne h5
    unfold parseRuuviTag
    rw [dvGetUint8_ok (List.length_pos.2 hne), exceptOk_bind,
      if_neg (by simpa using h5)]
    rfl
  · intro data h0 hne hlt
    unfold parseRuuviTag
    rw [dvGetUint8_ok (List.length_pos.2 hne), h0, exceptOk_bind,
      if_pos (show ((5 : Nat) == 5) = true from rfl), if_pos hlt]
    rfl

/-- Claim C5 counterexample: the empty 0x0499 payload satisfies the claim premise
length below 24 but the decoder throws a RangeError instead of returning no
result. -/
theorem parseRuuviTag_empty_cex :
    parseRuuviTag [] = .error () ∧ parseRuuviTag [] ≠ .ok none ∧
    ([] : List Nat).length < 24 := by
  decide

/-- Claim C5 witness: the Example 4 payload yields temperature 2.00, humidity
50.00, pressure 550.00 and battery 1600 mV. -/
theorem parseRuuviTag_fields_witness :
    parseRuuviTag ruuviExample4 =
      .ok (some (.ruuviTag "2.00" "50.00" "550.00" 1600)) := by
  have h := parseRuuviTag_fields.1 ruuviExample4 (by decide) (by decide)
  rw [h]
  have e1 : beU16At ruuviExample4 1 = 400 := by decide
  have e3 : beU16At ruuviExample4 3 = 20000 := by decide
  have e5 : beU16At ruuviExample4 5 = 5000 := by decide
  have e7 : Nat.shiftRight (beU16At ruuviExample4 7) 5 + 1600 = 1600 := by decide
  rw [e1, e3, e5, e7]
  have i1 : int16val 400 = (400 : ℤ) := by decide
  rw [i1]
  have t1 : jsToFixed 2 (fl64 (((400 : ℤ) : ℚ) * jsNum005)) = "2.00" := by
    rw [jsNum005_eval]
    have hprod : ((400 : ℤ) : ℚ) * ((5764607523034235 : ℚ) * (2 : ℚ) ^ ((-60 : ℤ))) =
        (2305843009213694000 : ℚ) * (2 : ℚ) ^ ((-60 : ℤ)) := by
      push_cast
      ring_nf
    rw [hprod]
    have hfl := fl64_eval_pos _ 1 4503599627370496 (by positivity)
      (intLog_eval _ _ (by positivity) (by norm_num) (by norm_num))
      (roundHalfEven_of_lt _ 4503599627370496
        (by rw [Int.floor_eq_iff]; constructor <;> norm_num) (by norm_num))
    rw [hfl,
      show ((4503599627370496 : ℤ) : ℚ) * (2 : ℚ) ^ ((1 : ℤ) - 52) = 2 by norm_num]
    rw [jsToFixed_eval 2 _ 200 (by norm_num)
      (by rw [Int.floor_eq_iff]; constructor <;> norm_num)]
    decide
  have t2 : jsToFixed 2 (fl64 (((20000 : ℕ) : ℚ) * jsNum0025)) = "50.00" := by
    rw [jsNum0025_eval]
    have hprod : ((20000 : ℕ) : ℚ) * ((5764607523034235 : ℚ) * (2 : ℚ) ^ ((-61 : ℤ))) =
        (115292150460684700000 : ℚ) * (2 : ℚ) ^ ((-61 : ℤ)) := by
      push_cast
      ring_nf
    rw [hprod]
    have hfl := fl64_eval_pos _ 5 7036874417766400 (by positivity)
      (intLog_eval _ _ (by positivity) (by norm_num) (by norm_num))
      (roundHalfEven_of_lt _ 7036874417766400
        (by rw [Int.floor_eq_iff]; constructor <;> norm_num) (by norm_num))
    rw [hfl,
      show ((7036874417766400 : ℤ) : ℚ) * (2 : ℚ) ^ ((5 : ℤ) - 52) = 50 by norm_num]
    rw [jsToFixed_eval 2 _ 5000 (by norm_num)
      (by rw [Int.floor_eq_iff]; constructor <;> norm_num)]
    decide
  have t3 : jsToFixed 2 ((((5000 : ℕ) : ℚ) + 50000) / 100) = "550.00" := by
    rw [jsToFixed_eval 2 _ 55000 (by norm_num)
      (by rw [Int.floor_eq_iff]; constructor <;> norm_num)]
    decide
  rw [t1, t2, t3]
